import Mathlib

/-!
Shallow embedding of the Customers service core: the Customer data model,
its query engine (find_by_name, single-field lookups), validation
(deserialize), the persistence gateway (create/update/delete with
rollback-on-failure), the suspend/unsuspend lifecycle, and the list/filter
route from service/routes.py (CustomerCollection.get).

The repository ships the model's tests and its callers; the model module
itself (service/models.py) is not part of the sources here, so the model
definitions below are modelled from the specification text, as their doc
comments state. The list/filter route is embedded from
service/routes.py directly.
-/

/-- Checks that the second character list is a leading segment of the
first.  Helper for the substring test used by fuzzy matching. -/
def leadEq : List Char → List Char → Bool
  | _, [] => true
  | [], _ :: _ => false
  | a :: as, b :: bs => (a == b) && leadEq as bs

/-- Checks that the second character list occurs contiguously inside the
first.  Helper for the substring test used by fuzzy matching. -/
def hasSub : List Char → List Char → Bool
  | [], needle => needle.isEmpty
  | ch :: t, needle => leadEq (ch :: t) needle || hasSub t needle

/-- Splits a character list on whitespace runs, discarding empty pieces,
accumulating the current word in reverse in `acc`.  This is the behaviour
of Python str.split with no arguments, which the spec describes as
"Tokenization splits on whitespace". -/
def wordsAux : List Char → List Char → List (List Char)
  | [], acc => if acc.isEmpty then [] else [acc.reverse]
  | ch :: rest, acc =>
      if ch.isWhitespace then
        if acc.isEmpty then wordsAux rest [] else acc.reverse :: wordsAux rest []
      else wordsAux rest (ch :: acc)

/-- Modelled from the spec: whitespace tokenization of a full-name search
query ("Tokenization splits on whitespace; no quoting or escaping"),
matching Python str.split with no arguments. -/
def tokenize (query : String) : List String :=
  (wordsAux query.data []).map (fun cs => String.mk cs)

/-- Removes leading and trailing whitespace from a string, the behaviour
of Python str.strip with no arguments. -/
def trimChars (s : String) : String :=
  String.mk
    (((s.data.dropWhile Char.isWhitespace).reverse.dropWhile
        Char.isWhitespace).reverse)

/-- The character data of a string folded to lower case, the
case-insensitive view used by fuzzy matching and SQL `ilike`. -/
def lowerData (s : String) : List Char :=
  s.data.map Char.toLower

/-- Modelled from the spec: the single domain error kind raised by the
core for all validation and persistence-commit failures. -/
structure DataValidationError where
  message : String
deriving DecidableEq

/-- Modelled from the spec: the Customer entity.  Text fields are
optional because an entity under construction may have them unset (the
store rejects null first/last names at create time); `id` is present iff
the entity has been persisted; `suspended` defaults to false.
Timestamps are outside this model. -/
structure Customers where
  id : Option Nat
  first_name : Option String
  last_name : Option String
  address : Option String
  suspended : Bool
deriving DecidableEq

/-- Modelled from the spec: the backing relational store, one row per
Customer, with a source of fresh identifiers. -/
structure Store where
  rows : List Customers
  nextId : Nat
deriving DecidableEq

/-- Modelled from the spec: per-field matching.  `fuzzy = true` is a
case-insensitive substring containment test; `fuzzy = false` is
case-sensitive full-string equality.  A null field never matches. -/
def fieldMatch (fuzzy : Bool) (value : String) (field : Option String) : Bool :=
  match field with
  | none => false
  | some f => if fuzzy then hasSub (lowerData f) (lowerData value) else f == value

/-- Modelled from the spec: `find_by_first_name(value, fuzzy)` single-field
lookup. -/
def Customers.find_by_first_name (s : Store) (value : String) (fuzzy : Bool) :
    List Customers :=
  s.rows.filter (fun c => fieldMatch fuzzy value c.first_name)

/-- Modelled from the spec: `find_by_last_name(value, fuzzy)` single-field
lookup. -/
def Customers.find_by_last_name (s : Store) (value : String) (fuzzy : Bool) :
    List Customers :=
  s.rows.filter (fun c => fieldMatch fuzzy value c.last_name)

/-- Modelled from the spec: `find_by_address(value, fuzzy)` single-field
lookup. -/
def Customers.find_by_address (s : Store) (value : String) (fuzzy : Bool) :
    List Customers :=
  s.rows.filter (fun c => fieldMatch fuzzy value c.address)

/-- Modelled from the spec: the token-count-dependent dispatch of
`find_by_name`.  Zero tokens give the empty result; one token is matched
against first and last name (OR); with two or more tokens the first and
last tokens are matched against first and last name (AND), interior
tokens ignored. -/
def find_by_tokens (s : Store) (toks : List String) (fuzzy : Bool) :
    List Customers :=
  match toks with
  | [] => []
  | [t] =>
      s.rows.filter (fun c =>
        fieldMatch fuzzy t c.first_name || fieldMatch fuzzy t c.last_name)
  | t1 :: t2 :: ts =>
      s.rows.filter (fun c =>
        fieldMatch fuzzy t1 c.first_name &&
          fieldMatch fuzzy (List.getLastD ts t2) c.last_name)

/-- Modelled from the spec: `find_by_name(query, fuzzy)` full-name search:
tokenize the query on whitespace and dispatch on the token count. -/
def Customers.find_by_name (s : Store) (query : String) (fuzzy : Bool) :
    List Customers :=
  find_by_tokens s (tokenize query) fuzzy

/-- Modelled from the spec: `find(id)` returns the single matching row or
none. -/
def Customers.find (s : Store) (i : Nat) : Option Customers :=
  s.rows.find? (fun r => r.id == some i)

/-- Modelled from the spec: `all()` returns all rows. -/
def Customers.all (s : Store) : List Customers :=
  s.rows

/-- Modelled from the spec: the external representation handed to
`deserialize`: either a mapping of string keys to string values (with an
optional boolean `suspended` entry) or something that is not a mapping at
all. -/
inductive Payload where
  | map (fields : List (String × String)) (suspended : Option Bool) : Payload
  | nonMapping : Payload
deriving DecidableEq

/-- Looks a key up in the field mapping. -/
def lookupField (fields : List (String × String)) (key : String) : Option String :=
  (fields.find? (fun kv => kv.fst == key)).map Prod.snd

/-- Modelled from the spec: `deserialize(fields)` fails with a
`DataValidationError` if the input is not a mapping or if `first_name`,
`last_name` or `address` is missing; otherwise it sets the three text
fields with surrounding whitespace trimmed, and accepts an optional
boolean `suspended` (absent means unchanged). -/
def Customers.deserialize (c : Customers) (p : Payload) :
    Except DataValidationError Customers :=
  match p with
  | Payload.nonMapping =>
      Except.error ⟨"Invalid Customers: body of request contained bad or no data"⟩
  | Payload.map fields susp =>
      match lookupField fields "first_name", lookupField fields "last_name",
          lookupField fields "address" with
      | some f, some l, some a =>
          Except.ok { c with
            first_name := some (trimChars f)
            last_name := some (trimChars l)
            address := some (trimChars a)
            suspended := susp.getD c.suspended }
      | _, _, _ => Except.error ⟨"Invalid Customers: missing required field"⟩

/-- Modelled from the spec: the store-level constraints checked at create
time: `first_name`/`last_name` must not be null and `address` must not be
blank or whitespace-only. -/
def createOk (c : Customers) : Bool :=
  c.first_name.isSome && c.last_name.isSome &&
    (match c.address with
     | none => false
     | some a => !(trimChars a == ""))

/-- Modelled from the spec: `create()` inserts a new row with a freshly
assigned id.  The commit succeeds only when the store constraints hold
and the underlying commit (`commitOk`) does not fail; on any failure the
pending change is rolled back — the original store is returned — and a
`DataValidationError` is raised. -/
def Customers.create (c : Customers) (s : Store) (commitOk : Bool) :
    Store × Except DataValidationError Customers :=
  let c2 : Customers := { c with id := some s.nextId }
  let pending : Store := { rows := s.rows ++ [c2], nextId := s.nextId + 1 }
  if createOk c && commitOk then (pending, Except.ok c2)
  else (s, Except.error ⟨"create failed and was rolled back"⟩)

/-- Modelled from the spec: `update()` requires an existing id and fails
with a `DataValidationError` if the id is unset or the commit fails; a
failed commit is rolled back, leaving the original store. -/
def Customers.update (c : Customers) (s : Store) (commitOk : Bool) :
    Store × Except DataValidationError Customers :=
  match c.id with
  | none => (s, Except.error ⟨"Update called with empty id field"⟩)
  | some _ =>
      let pending : Store :=
        { s with rows := s.rows.map (fun r => if r.id = c.id then c else r) }
      if commitOk then (pending, Except.ok c)
      else (s, Except.error ⟨"update failed and was rolled back"⟩)

/-- Modelled from the spec: `delete()` removes the row matching the id
(a no-op when absent); a failed commit is rolled back, leaving the
original store, and raises a `DataValidationError`. -/
def Customers.delete (c : Customers) (s : Store) (commitOk : Bool) :
    Store × Except DataValidationError Customers :=
  let pending : Store := { s with rows := s.rows.filter (fun r => !(r.id == c.id)) }
  if commitOk then (pending, Except.ok c)
  else (s, Except.error ⟨"delete failed and was rolled back"⟩)

/-- Modelled from the spec: `suspend()` sets `suspended = true` and
persists via the update path; calling it on an already-suspended
customer is a no-op that still succeeds. -/
def Customers.suspend (c : Customers) (s : Store) (commitOk : Bool) :
    Store × Except DataValidationError Customers :=
  if c.suspended then (s, Except.ok c)
  else Customers.update { c with suspended := true } s commitOk

/-- Modelled from the spec: `unsuspend()` sets `suspended = false` and
persists, with the same idempotence guarantee as `suspend()`. -/
def Customers.unsuspend (c : Customers) (s : Store) (commitOk : Bool) :
    Store × Except DataValidationError Customers :=
  if !c.suspended then (s, Except.ok c)
  else Customers.update { c with suspended := false } s commitOk

/-- Python truthiness of an optional request argument, as tested by
`if args[...]` in CustomerCollection.get: present and non-empty. -/
def argTruthy : Option String → Bool
  | none => false
  | some v => !v.isEmpty

/-- Case-insensitive substring match of value against a column, the
semantics of the SQL `ilike` pattern built in CustomerCollection.get
(a null column matches nothing). -/
def ilikeSub (field : Option String) (value : String) : Bool :=
  match field with
  | none => false
  | some f => hasSub (lowerData f) (lowerData value)

/-- Embeds CustomerCollection.get from service/routes.py: starting from
the base query, a filter is attached for each parameter that is truthy;
if any filter was applied the filtered query is executed, otherwise
`all()` is returned. -/
def listCustomers (s : Store) (first_name last_name address : Option String) :
    List Customers :=
  let q0 := s.rows
  let q1 := if argTruthy first_name then
      q0.filter (fun c => ilikeSub c.first_name (first_name.getD "")) else q0
  let q2 := if argTruthy last_name then
      q1.filter (fun c => ilikeSub c.last_name (last_name.getD "")) else q1
  let q3 := if argTruthy address then
      q2.filter (fun c => ilikeSub c.address (address.getD "")) else q2
  if argTruthy first_name || argTruthy last_name || argTruthy address then q3
  else Customers.all s

/-- Sample row used to instantiate the theorems on concrete data. -/
def aliceJones : Customers :=
  { id := some 1, first_name := some "Alice", last_name := some "Jones",
    address := some "1 Ave", suspended := false }

/-- Sample row used to instantiate the theorems on concrete data. -/
def aliceSmith : Customers :=
  { id := some 2, first_name := some "Alice", last_name := some "Smith",
    address := some "2 Ave", suspended := false }

/-- Sample row used to instantiate the theorems on concrete data. -/
def bobJones : Customers :=
  { id := some 3, first_name := some "Bob", last_name := some "Jones",
    address := some "3 Ave", suspended := true }

/-- Sample store used to instantiate the theorems on concrete data. -/
def sampleStore : Store :=
  { rows := [aliceJones, aliceSmith, bobJones], nextId := 4 }

/-- Sample unpersisted, invalid entity (no id, null first name). -/
def blankCustomer : Customers :=
  { id := none, first_name := none, last_name := some "Doe",
    address := some "1 Ave", suspended := false }

theorem leadEq_iff (xs ys : List Char) : leadEq xs ys = true ↔ ∃ r, xs = ys ++ r := by
  induction ys generalizing xs with
  | nil => simp [leadEq]
  | cons b bs ih =>
      cases xs with
      | nil => simp [leadEq]
      | cons a as =>
          simp only [leadEq, Bool.and_eq_true, beq_iff_eq, ih, List.cons_append,
            List.cons.injEq]
          exact exists_and_left.symm

theorem hasSub_iff (hay needle : List Char) :
    hasSub hay needle = true ↔ ∃ l r, hay = l ++ needle ++ r := by
  induction hay with
  | nil =>
      simp only [hasSub, List.isEmpty_iff]
      constructor
      · rintro rfl; exact ⟨[], [], rfl⟩
      · rintro ⟨l, r, h⟩
        exact (List.append_eq_nil.mp (List.append_eq_nil.mp h.symm).1).2
  | cons ch t ih =>
      simp only [hasSub, Bool.or_eq_true, ih, leadEq_iff]
      constructor
      · rintro (⟨r, h⟩ | ⟨l, r, rfl⟩)
        · exact ⟨[], r, by simpa using h⟩
        · exact ⟨ch :: l, r, rfl⟩
      · rintro ⟨l, r, h⟩
        cases l with
        | nil => exact Or.inl ⟨r, by simpa using h⟩
        | cons x xs =>
            simp only [List.cons_append] at h
            injection h with h1 h2
            exact Or.inr ⟨xs, r, h2⟩

theorem wordsAux_all_ws (l : List Char) (h : ∀ ch ∈ l, ch.isWhitespace = true) :
    wordsAux l [] = [] := by
  induction l with
  | nil => rfl
  | cons ch t ih =>
      have hch := h ch (List.mem_cons_self ch t)
      simp only [wordsAux, hch, if_true, List.isEmpty_nil]
      exact ih (fun c hc => h c (List.mem_cons_of_mem ch hc))

theorem fieldMatch_true_iff (v : String) (field : Option String) :
    fieldMatch true v field = true ↔
      ∃ f, field = some f ∧ ∃ l r, lowerData f = l ++ lowerData v ++ r := by
  cases field <;> simp [fieldMatch, hasSub_iff]

theorem fieldMatch_false_iff (v : String) (field : Option String) :
    fieldMatch false v field = true ↔ field = some v := by
  cases field <;> simp [fieldMatch]

theorem find_after_replace (rows : List Customers) (i : Nat) (c c2 : Customers)
    (hc : c.id = some i) (hid : c2.id = c.id) :
    rows.find? (fun r => r.id == some i) = some c →
    (rows.map (fun r => if r.id = c.id then c2 else r)).find?
        (fun r => r.id == some i) = some c2 := by
  induction rows with
  | nil => intro h; simp [List.find?] at h
  | cons r t ih =>
      intro h
      cases hr : (r.id == some i) with
      | true =>
          simp only [List.find?, hr] at h
          injection h with hrc
          subst hrc
          have hp : (c2.id == some i) = true := by simp [hid, hc]
          simp [List.find?, hp]
      | false =>
          simp only [List.find?, hr] at h
          have hrne : ¬ (r.id = c.id) := by
            intro hre
            rw [hre, hc] at hr
            simp at hr
          simp only [List.map_cons, if_neg hrne, List.find?, hr]
          exact ih h

/-- Claim C1: with exactly two whitespace-delimited tokens, find_by_name
returns exactly the rows whose first_name matches the first token AND
whose last_name matches the second token under the selected mode: with
fuzzy = false both matches are full equality, with fuzzy = true both are
case-insensitive substring tests. -/
theorem find_by_name_two_tokens_spec (s : Store) (q t1 t2 : String) (fz : Bool)
    (h : tokenize q = [t1, t2]) :
    (∀ c, c ∈ Customers.find_by_name s q fz ↔
        c ∈ s.rows ∧ fieldMatch fz t1 c.first_name = true ∧
          fieldMatch fz t2 c.last_name = true)
    ∧ (fz = false → ∀ c, c ∈ Customers.find_by_name s q fz ↔
        c ∈ s.rows ∧ c.first_name = some t1 ∧ c.last_name = some t2)
    ∧ (fz = true → ∀ c, c ∈ Customers.find_by_name s q fz ↔
        c ∈ s.rows ∧
          (∃ f, c.first_name = some f ∧
            ∃ l r, lowerData f = l ++ lowerData t1 ++ r) ∧
          (∃ f, c.last_name = some f ∧
            ∃ l r, lowerData f = l ++ lowerData t2 ++ r)) := by
  have hbase : Customers.find_by_name s q fz =
      s.rows.filter (fun c =>
        fieldMatch fz t1 c.first_name && fieldMatch fz t2 c.last_name) := by
    unfold Customers.find_by_name
    rw [h]
    rfl
  refine ⟨?_, ?_, ?_⟩
  · intro c
    simp [hbase, List.mem_filter]
  · rintro rfl c
    simp [hbase, List.mem_filter, fieldMatch_false_iff]
  · rintro rfl c
    simp [hbase, List.mem_filter, fieldMatch_true_iff]

/-- Instantiation of find_by_name_two_tokens_spec: the exact two-token
search "Alice Jones" on the sample store returns precisely the rows with
first_name Alice and last_name Jones. -/
theorem find_by_name_two_tokens_inst :
    aliceJones ∈ Customers.find_by_name sampleStore "Alice Jones" false ∧
    aliceSmith ∉ Customers.find_by_name sampleStore "Alice Jones" false := by
  have hs := find_by_name_two_tokens_spec sampleStore "Alice Jones" "Alice" "Jones"
    false (by decide)
  constructor
  · exact ((hs.2.1 rfl) aliceJones).mpr ⟨by decide, by decide, by decide⟩
  · intro hmem
    have := ((hs.2.1 rfl) aliceSmith).mp hmem
    exact absurd this.2.2 (by decide)

/-- Claim C4: with a single whitespace-delimited token, find_by_name
returns exactly the rows where the token matches first_name OR last_name
under the selected mode: a case-insensitive substring test on either
field when fuzzy = true, and full case-sensitive equality on either
field when fuzzy = false. -/
theorem find_by_name_one_token_spec (s : Store) (q t : String) (fz : Bool)
    (h : tokenize q = [t]) :
    (∀ c, c ∈ Customers.find_by_name s q fz ↔
        c ∈ s.rows ∧ (fieldMatch fz t c.first_name = true ∨
          fieldMatch fz t c.last_name = true))
    ∧ (fz = false → ∀ c, c ∈ Customers.find_by_name s q fz ↔
        c ∈ s.rows ∧ (c.first_name = some t ∨ c.last_name = some t))
    ∧ (fz = true → ∀ c, c ∈ Customers.find_by_name s q fz ↔
        c ∈ s.rows ∧
          ((∃ f, c.first_name = some f ∧
              ∃ l r, lowerData f = l ++ lowerData t ++ r) ∨
            (∃ f, c.last_name = some f ∧
              ∃ l r, lowerData f = l ++ lowerData t ++ r))) := by
  have hbase : Customers.find_by_name s q fz =
      s.rows.filter (fun c =>
        fieldMatch fz t c.first_name || fieldMatch fz t c.last_name) := by
    unfold Customers.find_by_name
    rw [h]
    rfl
  refine ⟨?_, ?_, ?_⟩
  · intro c
    simp [hbase, List.mem_filter]
  · rintro rfl c
    simp [hbase, List.mem_filter, fieldMatch_false_iff]
  · rintro rfl c
    simp [hbase, List.mem_filter, fieldMatch_true_iff]

/-- Instantiation of find_by_name_one_token_spec: the fuzzy single-token
search "ali" matches the Alice rows of the sample store but not Bob, and
the exact search "Ali" matches nothing. -/
theorem find_by_name_one_token_inst :
    aliceJones ∈ Customers.find_by_name sampleStore "ali" true ∧
    bobJones ∉ Customers.find_by_name sampleStore "ali" true ∧
    bobJones ∉ Customers.find_by_name sampleStore "Ali" false := by
  have hf := find_by_name_one_token_spec sampleStore "ali" "ali" true (by decide)
  have he := find_by_name_one_token_spec sampleStore "Ali" "Ali" false (by decide)
  refine ⟨?_, ?_, ?_⟩
  · exact (hf.1 aliceJones).mpr ⟨by decide, Or.inl (by decide)⟩
  · intro hmem
    exact absurd ((hf.1 bobJones).mp hmem).2 (by decide)
  · intro hmem
    exact absurd (((he.2.1 rfl) bobJones).mp hmem).2 (by decide)

/-- Claim C5: with more than two whitespace-delimited tokens, find_by_name
returns the same result set as find_by_name on a query whose tokens are
only the first and last tokens of the original query; interior tokens
have no effect. -/
theorem find_by_name_many_tokens_spec (s : Store) (q q2 : String) (fz : Bool)
    (t1 t2 : String) (ts : List String)
    (h : tokenize q = t1 :: t2 :: ts) (hts : ts ≠ [])
    (h2 : tokenize q2 = [t1, List.getLastD ts t2]) :
    Customers.find_by_name s q fz = Customers.find_by_name s q2 fz := by
  unfold Customers.find_by_name
  rw [h, h2]
  rfl

/-- Instantiation of find_by_name_many_tokens_spec: the three-token exact
search "Alice Middle Jones" on the sample store coincides with the
two-token search "Alice Jones". -/
theorem find_by_name_many_tokens_inst :
    Customers.find_by_name sampleStore "Alice Middle Jones" false =
      Customers.find_by_name sampleStore "Alice Jones" false :=
  find_by_name_many_tokens_spec sampleStore "Alice Middle Jones" "Alice Jones"
    false "Alice" "Middle" ["Jones"] (by decide) (by decide) (by decide)

/-- Claim C9: find_by_name on an empty or whitespace-only query returns
the empty result set for every store state (and, being a total function,
raises no error). -/
theorem find_by_name_blank_spec (s : Store) (q : String) (fz : Bool)
    (h : ∀ ch ∈ q.data, ch.isWhitespace = true) :
    Customers.find_by_name s q fz = [] := by
  unfold Customers.find_by_name tokenize
  rw [wordsAux_all_ws q.data h]
  rfl

/-- Instantiation of find_by_name_blank_spec: the empty query and a
whitespace-only query return the empty result on the sample store. -/
theorem find_by_name_blank_inst :
    Customers.find_by_name sampleStore "" true = [] ∧
    Customers.find_by_name sampleStore "   " false = [] :=
  ⟨find_by_name_blank_spec sampleStore "" true (by decide),
    find_by_name_blank_spec sampleStore "   " false (by decide)⟩

/-- Claim C6: each single-field lookup returns exactly the rows whose
respective field contains the value as a case-insensitive substring when
fuzzy = true, and exactly the rows whose field equals the value
case-sensitively when fuzzy = false. -/
theorem find_by_field_spec (s : Store) (v : String) (c : Customers) :
    (c ∈ Customers.find_by_first_name s v true ↔
        c ∈ s.rows ∧ ∃ f, c.first_name = some f ∧
          ∃ l r, lowerData f = l ++ lowerData v ++ r)
    ∧ (c ∈ Customers.find_by_first_name s v false ↔
        c ∈ s.rows ∧ c.first_name = some v)
    ∧ (c ∈ Customers.find_by_last_name s v true ↔
        c ∈ s.rows ∧ ∃ f, c.last_name = some f ∧
          ∃ l r, lowerData f = l ++ lowerData v ++ r)
    ∧ (c ∈ Customers.find_by_last_name s v false ↔
        c ∈ s.rows ∧ c.last_name = some v)
    ∧ (c ∈ Customers.find_by_address s v true ↔
        c ∈ s.rows ∧ ∃ f, c.address = some f ∧
          ∃ l r, lowerData f = l ++ lowerData v ++ r)
    ∧ (c ∈ Customers.find_by_address s v false ↔
        c ∈ s.rows ∧ c.address = some v) := by
  refine ⟨?_, ?_, ?_, ?_, ?_, ?_⟩ <;>
    simp [Customers.find_by_first_name, Customers.find_by_last_name,
      Customers.find_by_address, List.mem_filter, fieldMatch_true_iff,
      fieldMatch_false_iff]

/-- Claim C2: deserialize fails with DataValidationError exactly when the
input is not a mapping or one of first_name, last_name, address is
missing; when all three are present it succeeds and stores each value
with surrounding whitespace trimmed. -/
theorem deserialize_spec (c : Customers) (p : Payload) :
    ((∃ e, Customers.deserialize c p = Except.error e) ↔
      (p = Payload.nonMapping ∨
        ∃ fields susp, p = Payload.map fields susp ∧
          (lookupField fields "first_name" = none ∨
            lookupField fields "last_name" = none ∨
            lookupField fields "address" = none)))
    ∧ (∀ fields susp f l a, p = Payload.map fields susp →
        lookupField fields "first_name" = some f →
        lookupField fields "last_name" = some l →
        lookupField fields "address" = some a →
        Customers.deserialize c p = Except.ok { c with
          first_name := some (trimChars f)
          last_name := some (trimChars l)
          address := some (trimChars a)
          suspended := susp.getD c.suspended }) := by
  constructor
  · cases p with
    | nonMapping => simp [Customers.deserialize]
    | map fields susp =>
        rcases hf : lookupField fields "first_name" with _ | f <;>
          rcases hl : lookupField fields "last_name" with _ | l <;>
            rcases ha : lookupField fields "address" with _ | a <;>
              simp [Customers.deserialize, hf, hl, ha]
  · rintro fields susp f l a rfl hf hl ha
    simp [Customers.deserialize, hf, hl, ha]

/-- Instantiation of deserialize_spec: a full mapping deserializes with
whitespace trimmed, a mapping missing address fails, and a non-mapping
input fails. -/
theorem deserialize_inst :
    Customers.deserialize blankCustomer
        (Payload.map [("first_name", "  Jane  "), ("last_name", "  Doe "),
          ("address", "  1 Ave  ")] none) =
      Except.ok { blankCustomer with
        first_name := some "Jane"
        last_name := some "Doe"
        address := some "1 Ave"
        suspended := blankCustomer.suspended } ∧
    (∃ e, Customers.deserialize blankCustomer
        (Payload.map [("first_name", "A")] none) = Except.error e) ∧
    (∃ e, Customers.deserialize blankCustomer Payload.nonMapping =
        Except.error e) := by
  refine ⟨?_, ?_, ?_⟩
  · have h9 := (deserialize_spec blankCustomer
        (Payload.map [("first_name", "  Jane  "), ("last_name", "  Doe "),
          ("address", "  1 Ave  ")] none)).2
      [("first_name", "  Jane  "), ("last_name", "  Doe "), ("address", "  1 Ave  ")]
      none "  Jane  " "  Doe " "  1 Ave  " rfl (by decide) (by decide) (by decide)
    rw [h9]
    rfl
  · exact (deserialize_spec blankCustomer _).1.mpr
      (Or.inr ⟨[("first_name", "A")], none, rfl, Or.inr (Or.inl (by decide))⟩)
  · exact (deserialize_spec blankCustomer _).1.mpr (Or.inl rfl)

/-- Claim C3: a failing create, update or delete — update with unset id
and any underlying commit failure included — raises the single domain
error kind DataValidationError and leaves the store unchanged relative to
its state before the call. -/
theorem crud_failure_atomic (s : Store) (c : Customers) (ok : Bool) :
    (∀ e, (Customers.create c s ok).2 = Except.error e →
        (Customers.create c s ok).1 = s)
    ∧ (∀ e, (Customers.update c s ok).2 = Except.error e →
        (Customers.update c s ok).1 = s)
    ∧ (∀ e, (Customers.delete c s ok).2 = Except.error e →
        (Customers.delete c s ok).1 = s)
    ∧ (c.id = none → ∃ e, (Customers.update c s ok).2 = Except.error e)
    ∧ (ok = false →
        (∃ e, (Customers.create c s ok).2 = Except.error e) ∧
        (∃ e, (Customers.update c s ok).2 = Except.error e) ∧
        (∃ e, (Customers.delete c s ok).2 = Except.error e)) := by
  refine ⟨?_, ?_, ?_, ?_, ?_⟩
  · intro e
    unfold Customers.create
    cases hv : createOk c && ok <;> simp
  · intro e
    unfold Customers.update
    rcases hid : c.id with _ | i
    · simp
    · cases ok <;> simp
  · intro e
    unfold Customers.delete
    cases ok <;> simp
  · intro h
    simp [Customers.update, h]
  · rintro rfl
    refine ⟨?_, ?_, ?_⟩
    · simp [Customers.create]
    · rcases hid : c.id with _ | i <;> simp [Customers.update, hid]
    · simp [Customers.delete]

/-- Instantiation of crud_failure_atomic: a create whose commit fails and
an update on an entity with no id both error and leave the sample store
unchanged. -/
theorem crud_failure_atomic_inst :
    (Customers.create blankCustomer sampleStore false).1 = sampleStore ∧
    (∃ e, (Customers.update blankCustomer sampleStore true).2 =
        Except.error e) ∧
    (Customers.update blankCustomer sampleStore true).1 = sampleStore := by
  have h := crud_failure_atomic sampleStore blankCustomer false
  have h2 := crud_failure_atomic sampleStore blankCustomer true
  refine ⟨h.1 ⟨"create failed and was rolled back"⟩ (by rfl),
    h2.2.2.2.1 (by rfl), ?_⟩
  exact h2.2.1 ⟨"Update called with empty id field"⟩ (by rfl)

/-- Claim C8: on a persisted customer, suspend sets suspended to true and
persists it so that a subsequent find reflects it; suspending an
already-suspended customer is a no-op that leaves the store unchanged and
still returns successfully; unsuspend satisfies the symmetric property. -/
theorem suspend_unsuspend_spec (s : Store) (i : Nat) (c : Customers)
    (h : Customers.find s i = some c) :
    (c.suspended = false →
        (Customers.suspend c s true).2 = Except.ok { c with suspended := true } ∧
        Customers.find (Customers.suspend c s true).1 i =
          some { c with suspended := true })
    ∧ (c.suspended = true →
        (Customers.suspend c s true).1 = s ∧
        (Customers.suspend c s true).2 = Except.ok c ∧
        Customers.find (Customers.suspend c s true).1 i = some c)
    ∧ (c.suspended = true →
        (Customers.unsuspend c s true).2 =
          Except.ok { c with suspended := false } ∧
        Customers.find (Customers.unsuspend c s true).1 i =
          some { c with suspended := false })
    ∧ (c.suspended = false →
        (Customers.unsuspend c s true).1 = s ∧
        (Customers.unsuspend c s true).2 = Except.ok c ∧
        Customers.find (Customers.unsuspend c s true).1 i = some c) := by
  have hc : c.id = some i := by
    have h2 := List.find?_some h
    simpa using h2
  refine ⟨?_, ?_, ?_, ?_⟩
  · intro hs
    have hred : Customers.suspend c s true =
        ({ s with rows := s.rows.map (fun r =>
            if r.id = c.id then { c with suspended := true } else r) },
          Except.ok { c with suspended := true }) := by
      unfold Customers.suspend Customers.update
      rw [hs]
      simp [hc]
    rw [hred]
    refine ⟨rfl, ?_⟩
    unfold Customers.find
    exact find_after_replace s.rows i c { c with suspended := true } hc rfl h
  · intro hs
    unfold Customers.suspend
    rw [hs]
    exact ⟨rfl, rfl, h⟩
  · intro hs
    have hred : Customers.unsuspend c s true =
        ({ s with rows := s.rows.map (fun r =>
            if r.id = c.id then { c with suspended := false } else r) },
          Except.ok { c with suspended := false }) := by
      unfold Customers.unsuspend Customers.update
      rw [hs]
      simp [hc]
    rw [hred]
    refine ⟨rfl, ?_⟩
    unfold Customers.find
    exact find_after_replace s.rows i c { c with suspended := false } hc rfl h
  · intro hs
    unfold Customers.unsuspend
    rw [hs]
    exact ⟨rfl, rfl, h⟩

/-- Instantiation of suspend_unsuspend_spec: suspending the active sample
customer is reflected by a subsequent find, and suspending the
already-suspended sample customer leaves the store unchanged. -/
theorem suspend_unsuspend_inst :
    Customers.find (Customers.suspend aliceJones sampleStore true).1 1 =
      some { aliceJones with suspended := true } ∧
    (Customers.suspend bobJones sampleStore true).1 = sampleStore := by
  have h1 := suspend_unsuspend_spec sampleStore 1 aliceJones (by decide)
  have h3 := suspend_unsuspend_spec sampleStore 3 bobJones (by decide)
  exact ⟨(h1.1 rfl).2, (h3.2.1 rfl).1⟩

/-- Claim C7: the list operation with no filter parameters returns all
customers, and with filters supplied returns exactly the rows satisfying
the conjunction of the per-field predicates of the supplied fields; an
unsupplied field imposes no constraint. -/
theorem listCustomers_spec (s : Store) (fn ln ad : Option String)
    (c : Customers) :
    (listCustomers s none none none = Customers.all s)
    ∧ (c ∈ listCustomers s fn ln ad ↔ c ∈ s.rows ∧
        (argTruthy fn = true → ilikeSub c.first_name (fn.getD "") = true) ∧
        (argTruthy ln = true → ilikeSub c.last_name (ln.getD "") = true) ∧
        (argTruthy ad = true → ilikeSub c.address (ad.getD "") = true)) := by
  refine ⟨rfl, ?_⟩
  unfold listCustomers Customers.all
  cases hfn : argTruthy fn <;> cases hln : argTruthy ln <;>
    cases had : argTruthy ad <;> simp [List.mem_filter, and_assoc] <;> tauto

/-- Instantiation of listCustomers_spec: filtering the sample store by a
first-name substring and an address substring keeps the matching row and
drops a row failing the address predicate. -/
theorem listCustomers_inst :
    aliceJones ∈ listCustomers sampleStore (some "ali") none (some "1 av") ∧
    aliceSmith ∉ listCustomers sampleStore (some "ali") none (some "1 av") := by
  have ha := (listCustomers_spec sampleStore (some "ali") none
    (some "1 av") aliceJones).2
  have hb := (listCustomers_spec sampleStore (some "ali") none
    (some "1 av") aliceSmith).2
  constructor
  · exact ha.mpr ⟨by decide, (fun _ => by decide),
      (fun hx => absurd hx (by decide)), (fun _ => by decide)⟩
  · intro hmem
    have hx := (hb.mp hmem).2.2.2
    exact absurd (hx (by decide)) (by decide)

/-- Claim C10: a list filter parameter supplied as the empty string is
treated exactly as if it were absent, and a request whose three filter
parameters are all empty strings returns the full customer list. -/
theorem listCustomers_empty_args_spec (s : Store) (x y : Option String) :
    (listCustomers s (some "") x y = listCustomers s none x y)
    ∧ (listCustomers s x (some "") y = listCustomers s x none y)
    ∧ (listCustomers s x y (some "") = listCustomers s x y none)
    ∧ (listCustomers s (some "") (some "") (some "") = Customers.all s) := by
  refine ⟨?_, ?_, ?_, ?_⟩ <;> rfl
